import Mathlib

/-!
Verification development for the Släktkort Riksarkivet provider layer
(`ra-providers.js`, AO-API-03 PATCH v4.1 variant).  JavaScript values are
shallowly embedded as `JsVal`; the provider functions (`makeCandidate`,
`safeUrl`, `pickText`, `parseDateRangeFromMetadataDate`,
`isLikelyPersonItem`, `DemoProvider.search`, `SearchApiProvider.search`,
`pickProvider`) are translated function-by-function from the source.
Network effects are modelled by passing the single fetch outcome as an
explicit argument together with a count of fetch invocations.
-/

namespace RA

mutual

/-- Embedding of the JavaScript values the provider layer manipulates:
`undefined`, `null`, strings, (integral) numbers, arrays and plain objects.
Array elements and object fields are given by the mutually defined spine
types `JsItems` and `JsFields` so that size computations stay structural. -/
inductive JsVal where
  | undefined
  | null
  | str (s : String)
  | num (n : Int)
  | arr (xs : JsItems)
  | obj (fs : JsFields)

inductive JsItems where
  | nil
  | cons (hd : JsVal) (tl : JsItems)

inductive JsFields where
  | nil
  | cons (key : String) (val : JsVal) (tl : JsFields)

end

/-- Build an array spine from a Lean list. -/
def jsItemsOf : List JsVal → JsItems
  | [] => .nil
  | x :: xs => .cons x (jsItemsOf xs)

/-- The elements of an array spine as a Lean list. -/
def listOfItems : JsItems → List JsVal
  | .nil => []
  | .cons x xs => x :: listOfItems xs

/-- Build an object spine from a Lean association list. -/
def jsFieldsOf : List (String × JsVal) → JsFields
  | [] => .nil
  | (k, v) :: fs => .cons k v (jsFieldsOf fs)

/-- JavaScript array literal. -/
def jarr (l : List JsVal) : JsVal := .arr (jsItemsOf l)

/-- JavaScript object literal. -/
def jobj (l : List (String × JsVal)) : JsVal := .obj (jsFieldsOf l)

mutual

/-- Structural size of a value, used as recursion fuel below. -/
def jsSize : JsVal → Nat
  | .undefined => 1
  | .null => 1
  | .str _ => 1
  | .num _ => 1
  | .arr xs => 1 + jsSizeItems xs
  | .obj fs => 1 + jsSizeFields fs

def jsSizeItems : JsItems → Nat
  | .nil => 0
  | .cons x xs => 1 + jsSize x + jsSizeItems xs

def jsSizeFields : JsFields → Nat
  | .nil => 0
  | .cons _ v fs => 1 + jsSize v + jsSizeFields fs

end

/-- First binding of `key` in an object spine (JavaScript property access). -/
def lookupField : JsFields → String → Option JsVal
  | .nil, _ => none
  | .cons k v fs, key => if k = key then some v else lookupField fs key

/-- JavaScript truthiness: `undefined`, `null`, `""` and `0` are falsy;
arrays and objects are always truthy. -/
def truthy : JsVal → Bool
  | .undefined => false
  | .null => false
  | .str s => !(s = "")
  | .num n => !(n = 0)
  | .arr _ => true
  | .obj _ => true

/-- JavaScript `a || b`. -/
def jsOr (a b : JsVal) : JsVal := if truthy a then a else b

/-- JavaScript `a && b`. -/
def jsAnd (a b : JsVal) : JsVal := if truthy a then b else a

/-- Nullish test used by the `??` operator. -/
def jsNullish : JsVal → Bool
  | .undefined => true
  | .null => true
  | _ => false

/-- JavaScript `a ?? b`. -/
def jsCoalesce (a b : JsVal) : JsVal := if jsNullish a then b else a

/-- Property access `v[k]`: `undefined` on non-objects and missing keys. -/
def getField : JsVal → String → JsVal
  | .obj fs, k => (lookupField fs k).getD .undefined
  | _, _ => .undefined

/-- Whether `v` is an actual array (`Array.isArray`). -/
def isArr : JsVal → Bool
  | .arr _ => true
  | _ => false

/-- The whitespace set stripped by JavaScript `String.prototype.trim`
(ASCII whitespace plus NBSP and BOM). -/
def isJsWhitespace (c : Char) : Bool :=
  c = ' ' || c = '\t' || c = '\n' || c = '\r' ||
  c = '\u000b' || c = '\u000c' || c = ' ' || c = '﻿'

/-- `trim` on the character list: drop whitespace from both ends. -/
def jsTrimList (l : List Char) : List Char :=
  ((l.dropWhile isJsWhitespace).reverse.dropWhile isJsWhitespace).reverse

/-- JavaScript `s.trim()`. -/
def jsTrim (s : String) : String := ⟨jsTrimList s.data⟩

/-- Lower-casing as `String.prototype.toLowerCase` acts on the alphabet
occurring in this code base (ASCII letters and Å/Ä/Ö). -/
def jsLowerChar (c : Char) : Char :=
  if 'A' ≤ c ∧ c ≤ 'Z' then Char.ofNat (c.toNat + 32)
  else if c = 'Å' then 'å'
  else if c = 'Ä' then 'ä'
  else if c = 'Ö' then 'ö'
  else c

/-- JavaScript `s.toLowerCase()`. -/
def jsToLower (s : String) : String := ⟨s.data.map jsLowerChar⟩

/-- `normalize(s)` from the source, specialised to string inputs:
`String(s || "").trim().toLowerCase()` (`String(s || "")` is the identity
on strings). -/
def normalizeStr (s : String) : String := jsToLower (jsTrim s)

/-- Whether `sub` occurs contiguously inside `hay`. -/
def isInfixB (sub : List Char) : List Char → Bool
  | [] => sub.isPrefixOf []
  | c :: rest => sub.isPrefixOf (c :: rest) || isInfixB sub rest

/-- JavaScript `hay.includes(sub)`: substring containment. -/
def jsIncludes (hay sub : String) : Bool := isInfixB sub.data hay.data

/-- Case-sensitive prefix test on strings. -/
def startsWithCS (s pre : String) : Bool := pre.data.isPrefixOf s.data

/-- The regex `^https?://` read case-sensitively. -/
def matchesHttpRegexCS (s : String) : Bool :=
  startsWithCS s "http://" || startsWithCS s "https://"

/-- The source regex `/^https?:\/\//i` (case-insensitive). -/
def matchesHttpRegexCI (s : String) : Bool := matchesHttpRegexCS (jsToLower s)

/-- `String(n)` for the integral numbers of the model. -/
def jsNumToString (n : Int) : String := toString n

/-- Element stringification inside `String(array)`: elements are joined by
commas, `null`/`undefined` elements become empty.  The fuel argument bounds
the recursion depth; it is instantiated with `jsSize` of the value, which
always suffices since every recursive call descends into a strictly smaller
value. -/
def jsStringElemF : Nat → JsVal → String
  | _, .undefined => ""
  | _, .null => ""
  | _, .str s => s
  | _, .num n => jsNumToString n
  | _, .obj _ => "[object Object]"
  | 0, .arr _ => ""
  | fuel+1, .arr xs => String.intercalate "," ((listOfItems xs).map (jsStringElemF fuel))

/-- JavaScript `String(v)`. -/
def jsString (v : JsVal) : String :=
  match v with
  | .undefined => "undefined"
  | .null => "null"
  | v => jsStringElemF (jsSize v) v

/-- `safeArray(v)`: the elements if `v` is an array, else `[]`. -/
def safeArray : JsVal → List JsVal
  | .arr xs => listOfItems xs
  | _ => []

/-- `clampInt(v, min, max, fallback)` on the (always finite) integers of the
model. -/
def clampInt (v lo hi _fallback : Int) : Int :=
  min (max v lo) hi

/-- `safeUrl(s)`: trim the stringified value; keep it only when it matches
`/^https?:\/\//i`, otherwise return the empty string. -/
def safeUrl (v : JsVal) : String :=
  let u := jsTrim (jsString (jsOr v (.str "")))
  if u = "" then ""
  else if matchesHttpRegexCI u then u
  else ""

/-- The `?? ""`-terminated key chain of `pickText` on objects:
`v.text ?? v.value ?? v.label ?? v.title ?? v.name ?? v.caption ??
v.displayName ?? v.content ?? ""`. -/
def objPickChain (fs : JsFields) : JsVal :=
  let g := fun k => (lookupField fs k).getD JsVal.undefined
  jsCoalesce (g "text") (jsCoalesce (g "value") (jsCoalesce (g "label")
    (jsCoalesce (g "title") (jsCoalesce (g "name") (jsCoalesce (g "caption")
      (jsCoalesce (g "displayName") (jsCoalesce (g "content") (.str ""))))))))

/-- `pickText(v)` with explicit fuel (instantiated with `jsSize`, which
always suffices: each recursive call is on a strictly smaller value). -/
def pickTextF : Nat → JsVal → String
  | _, .undefined => ""
  | _, .null => ""
  | _, .str s => jsTrim s
  | _, .num n => jsNumToString n
  | 0, .arr _ => ""
  | 0, .obj _ => ""
  | fuel+1, .arr xs =>
      jsTrim (String.intercalate " " ((((listOfItems xs).map (pickTextF fuel)).filter (fun t => !(t = "")))))
  | fuel+1, .obj fs => pickTextF fuel (objPickChain fs)

/-- `pickText(v)`: robust text extraction over strings, numbers, arrays and
nested objects. -/
def pickText (v : JsVal) : String := pickTextF (jsSize v) v

/-! ### Year-range parsing (`parseDateRangeFromMetadataDate`) -/

/-- Word characters of the JavaScript regex class `\w` (ASCII only). -/
def isWordChar (c : Char) : Bool :=
  ('a' ≤ c ∧ c ≤ 'z') || ('A' ≤ c ∧ c ≤ 'Z') || ('0' ≤ c ∧ c ≤ '9') || c = '_'

/-- ASCII digit test for the year pattern. -/
def isDig (c : Char) : Bool := '0' ≤ c ∧ c ≤ '9'

/-- Digit value of an ASCII digit character. -/
def digVal (c : Char) : Nat := c.toNat - 48

/-- The body `(1[0-9]{3}|20[0-9]{2})` of the year regex on four characters. -/
def yearPat (c1 c2 c3 c4 : Char) : Bool :=
  (c1 = '1' && isDig c2 && isDig c3 && isDig c4) ||
  (c1 = '2' && c2 = '0' && isDig c3 && isDig c4)

/-- Numeric value of a matched four-digit year. -/
def yearVal (c1 c2 c3 c4 : Char) : Nat :=
  digVal c1 * 1000 + digVal c2 * 100 + digVal c3 * 10 + digVal c4

/-- The trailing `\b` of the year regex: end of input or a non-word char. -/
def boundaryAfter : List Char → Bool
  | [] => true
  | c :: _ => !isWordChar c

/-- Global scan of `\b(1[0-9]{3}|20[0-9]{2})\b`: `prevWord` records whether
the character before the current position is a word character (for the
leading `\b`); after a match the scan resumes right after it, otherwise it
advances one character, exactly as a JavaScript global regex does. -/
def findYears : List Char → Bool → List Nat
  | c1 :: c2 :: c3 :: c4 :: rest, prevWord =>
      if !prevWord && yearPat c1 c2 c3 c4 && boundaryAfter rest then
        yearVal c1 c2 c3 c4 :: findYears rest true
      else
        findYears (c2 :: c3 :: c4 :: rest) (isWordChar c1)
  | c :: rest, _ => findYears rest (isWordChar c)
  | [], _ => []

/-- All matches of the year regex in a string, in document order. -/
def yearTokens (s : String) : List Nat := findYears s.data false

/-- `{ birthYear, deathYear }` as produced by the date-range parser:
a year number or `null` for each side. -/
structure YearRange where
  birthYear : Option Nat
  deathYear : Option Nat
deriving DecidableEq

/-- `parseDateRangeFromMetadataDate(dateStr)`: pick the text, return
`null/null` on empty text, else the first matched year as `birthYear` and
the second (when present) as `deathYear`.  `Number` of a matched token is
always finite, so the source's `Number.isFinite` guards never fire. -/
def parseDateRangeFromMetadataDate (dateStr : JsVal) : YearRange :=
  let s := pickText dateStr
  if s = "" then ⟨none, none⟩
  else
    let years := yearTokens s
    let a := if years.length ≥ 1 then some (years.getD 0 0) else none
    let b := if years.length ≥ 2 then some (years.getD 1 0) else none
    ⟨a, b⟩

/-! ### Link extraction (`extractUrlFromLinks`) -/

/-- First non-empty string in a list, else `""` (models `if (u) return u`
inside a scanning loop). -/
def firstNonEmptyStr : List String → String
  | [] => ""
  | s :: rest => if s = "" then firstNonEmptyStr rest else s

/-- Whether `typeof v === "object"` holds for a non-null value
(arrays and plain objects). -/
def isObjectLike : JsVal → Bool
  | .arr _ => true
  | .obj _ => true
  | _ => false

/-- One named-key probe of `extractUrlFromLinks`: skip falsy nodes, take a
valid `href` from an object node, else scan an array node for the first
element with a valid `href`. -/
def tryNodeUrl (node : JsVal) : String :=
  if !truthy node then ""
  else
    let u1 := if isObjectLike node && truthy (getField node "href")
              then safeUrl (getField node "href") else ""
    if u1 ≠ "" then u1
    else match node with
      | .arr xs => firstNonEmptyStr ((listOfItems xs).map
          (fun it => safeUrl (jsAnd it (getField it "href"))))
      | _ => ""

/-- The final sweep of `extractUrlFromLinks` over one entry: any truthy
object-like node with a truthy `href` contributes `safeUrl(node.href)`. -/
def entryHrefUrl (node : JsVal) : String :=
  if truthy node && isObjectLike node && truthy (getField node "href")
  then safeUrl (getField node "href") else ""

/-- Keys of an object spine in order. -/
def fieldKeys : JsFields → List String
  | .nil => []
  | .cons k _ fs => k :: fieldKeys fs

/-- `extractUrlFromLinks(links)`: probe the prioritized relation names,
then fall back to scanning every entry for a first valid `href`.  On an
array value the named probes all miss and `Object.keys` enumerates the
elements. -/
def extractUrlFromLinks (links : JsVal) : String :=
  if !truthy links then ""
  else match links with
    | .obj fs =>
        let tryKeys := ["html", "self", "alternate", "record", "ui", "web"]
        let r1 := firstNonEmptyStr (tryKeys.map (fun k => tryNodeUrl (getField (.obj fs) k)))
        if r1 ≠ "" then r1
        else firstNonEmptyStr ((fieldKeys fs).map
          (fun k => entryHrefUrl (getField (.obj fs) k)))
    | .arr xs => firstNonEmptyStr ((listOfItems xs).map entryHrefUrl)
    | _ => ""

/-! ### Person filter -/

/-- The negative type vocabulary (never let these through). -/
def NEGATIVE_TYPE_TOKENS : List String :=
  ["recordset", "record set", "record", "arkiv", "series",
   "place", "ort", "socken",
   "building", "byggnad",
   "drawing", "ritning", "skiss", "fasad", "plan",
   "map", "karta",
   "photograph", "foto", "bild"]

/-- `v` if it is an array, else the singleton `[v]` (the `flatMap` step of
`collectTypeTokens`). -/
def jsFlatten : JsVal → List JsVal
  | .arr xs => listOfItems xs
  | v => [v]

/-- Order-preserving deduplication with an accumulator of seen entries. -/
def dedupFirstAux : List String → List String → List String
  | [], _ => []
  | x :: xs, seen =>
      if x ∈ seen then dedupFirstAux xs seen
      else x :: dedupFirstAux xs (x :: seen)

/-- `Array.from(new Set(merged))`: keep the first occurrence of each entry. -/
def dedupFirst (l : List String) : List String := dedupFirstAux l []

/-- `collectTypeTokens(r)`: gather every type-like field (direct and under
`metadata`), flatten arrays, normalize each via `pickText`, drop empties,
deduplicate. -/
def collectTypeTokens (r : JsVal) : List String :=
  let md := jsAnd r (getField r "metadata")
  let bag : List JsVal :=
    [jsAnd r (getField r "objectType"),
     jsAnd r (getField r "type"),
     jsAnd r (getField r "@type"),
     jsAnd r (getField r "recordType"),
     jsAnd r (getField r "entityType"),
     jsAnd r (getField r "kind"),
     jsAnd r (getField r "class"),
     jsAnd md (jsOr (getField md "objectType") (jsOr (getField md "type")
       (jsOr (getField md "@type") (jsOr (getField md "entityType")
         (getField md "recordType")))))]
  let merged := ((bag.flatMap jsFlatten).map
    (fun v => normalizeStr (pickText v))).filter (fun t => !(t = ""))
  dedupFirst merged

/-- `hasNegativeType(typeTokens)`: some token contains a negative word. -/
def hasNegativeType (typeTokens : List String) : Bool :=
  if typeTokens = [] then false
  else typeTokens.any (fun t => NEGATIVE_TYPE_TOKENS.any (fun bad => jsIncludes t bad))

/-- The primary person signal of `isLikelyPersonItem`: either the classic
`objectType=Agent` with a person `type`, or both "agent" and "person"
occurring among the joined type tokens. -/
def primarySignal (r : JsVal) : Bool :=
  let typeTokens := collectTypeTokens r
  let joined := String.intercalate " | " typeTokens
  let ot := normalizeStr (pickText (jsAnd r (getField r "objectType")))
  let tp := normalizeStr (pickText (jsAnd r (getField r "type")))
  (ot = "agent" && (tp = "person" || jsIncludes tp "person")) ||
  (jsIncludes joined "agent" && jsIncludes joined "person")

/-- `isLikelyPersonItem(r)`: negative tokens always reject; otherwise accept
only on an explicit agent+person signal. -/
def isLikelyPersonItem (r : JsVal) : Bool :=
  let typeTokens := collectTypeTokens r
  if hasNegativeType typeTokens then false
  else
    let joined := String.intercalate " | " typeTokens
    let hasAgent := jsIncludes joined "agent"
    let hasPerson := jsIncludes joined "person"
    let ot := normalizeStr (pickText (jsAnd r (getField r "objectType")))
    let tp := normalizeStr (pickText (jsAnd r (getField r "type")))
    if ot = "agent" && (tp = "person" || jsIncludes tp "person") then true
    else if hasAgent && hasPerson then true
    else false

/-- `extractBestPersonName(r)`: prioritized name fields, the truthy ones
collected into an array handed to `pickText`, then stringified and trimmed. -/
def extractBestPersonName (r : JsVal) : String :=
  let md := jsAnd r (getField r "metadata")
  let candidates : List JsVal :=
    [jsAnd r (getField r "displayName"),
     jsAnd r (getField r "name"),
     jsAnd r (getField r "personName"),
     jsAnd r (getField r "agentName"),
     jsAnd md (jsOr (getField md "name") (jsOr (getField md "personName")
       (jsOr (getField md "agentName") (getField md "displayName")))),
     jsAnd r (getField r "caption"),
     jsAnd r (getField r "title"),
     jsAnd r (getField r "label"),
     jsAnd md (getField md "title")]
  jsTrim (pickText (jarr (candidates.filter truthy)))

/-- Letters accepted by the name heuristic's `[A-Za-zÅÄÖåäö]` class. -/
def isNameAlpha (c : Char) : Bool :=
  ('A' ≤ c ∧ c ≤ 'Z') || ('a' ≤ c ∧ c ≤ 'z') ||
  c = 'Å' || c = 'Ä' || c = 'Ö' || c = 'å' || c = 'ä' || c = 'ö'

/-- Maximal whitespace-separated tokens of a character list
(`split(/\s+/).filter(Boolean)`). -/
def splitTokensAux : List Char → List Char → List (List Char)
  | [], acc => if acc = [] then [] else [acc.reverse]
  | c :: rest, acc =>
      if isJsWhitespace c then
        (if acc = [] then splitTokensAux rest [] else acc.reverse :: splitTokensAux rest [])
      else splitTokensAux rest (c :: acc)

/-- Whitespace-separated tokens of a string. -/
def splitTokens (s : String) : List (List Char) := splitTokensAux s.data []

/-- The stop list of the person-name heuristic. -/
def badWords : List String :=
  ["kapell", "kyrka", "kyrkogård", "församling",
   "ritning", "skiss", "fasad", "plan", "byggnad",
   "s:t", "st.",
   "inventering", "förteckning", "serie", "volym"]

/-- `looksLikePersonName(s)`: non-trivial length, contains letters, no
colon, avoids the stop list, and is either a comma name ("Surname, Given")
or a 1–4 word free name. -/
def looksLikePersonName (s : String) : Bool :=
  let t := jsTrim s
  if t = "" then false
  else if t.length < 2 then false
  else if t.length > 80 then false
  else if !(t.data.any isNameAlpha) then false
  else if t.data.contains ':' then false
  else
    let low := normalizeStr t
    if badWords.any (fun w => jsIncludes low w) then false
    else if t.data.contains ',' then true
    else
      let parts := splitTokens t
      if parts.length ≥ 1 && parts.length ≤ 4 then true
      else false

/-! ### Candidate normalizer (`makeCandidate`) -/

/-- The field bundle handed to `makeCandidate` (an arbitrary JavaScript
object read at the eight contract keys). -/
structure RawCandidate where
  id : JsVal := .undefined
  name : JsVal := .undefined
  birthYear : JsVal := .undefined
  deathYear : JsVal := .undefined
  place : JsVal := .undefined
  source : JsVal := .undefined
  url : JsVal := .undefined
  why : JsVal := .undefined

/-- The locked Candidate contract.  `birthYear`/`deathYear` are passed
through `?? null` unchanged, so they stay JavaScript values. -/
structure Candidate where
  id : String
  name : String
  birthYear : JsVal
  deathYear : JsVal
  place : String
  source : String
  url : String
  why : List String

/-- `makeCandidate(o)`: the single choke point producing Candidates. -/
def makeCandidate (o : RawCandidate) : Candidate :=
  { id := jsString (jsOr o.id (.str ""))
    name := jsString (jsOr o.name (.str ""))
    birthYear := jsCoalesce o.birthYear .null
    deathYear := jsCoalesce o.deathYear .null
    place := jsString (jsOr o.place (.str ""))
    source := jsString (jsOr o.source (.str ""))
    url := safeUrl (jsOr o.url (.str ""))
    why := (safeArray o.why).map jsString }

/-- Re-read a produced Candidate as the object fed back to `makeCandidate`
(for the idempotence property). -/
def candidateToRaw (c : Candidate) : RawCandidate :=
  { id := .str c.id
    name := .str c.name
    birthYear := c.birthYear
    deathYear := c.deathYear
    place := .str c.place
    source := .str c.source
    url := .str c.url
    why := jarr (c.why.map JsVal.str) }

/-! ### Configuration and providers -/

/-- `DEFAULT_LIMIT` (AO-API-03). -/
def DEFAULT_LIMIT : Int := 150

/-- `MAX_LIMIT`. -/
def MAX_LIMIT : Int := 150

/-- `MIN_QUERY_LEN`. -/
def MIN_QUERY_LEN : Nat := 3

/-- The clamped per-search limit, as a natural number. -/
def limitNat : Nat := (clampInt DEFAULT_LIMIT 1 MAX_LIMIT DEFAULT_LIMIT).toNat

/-- One record of the fixed demo dataset. -/
structure DemoRec where
  id : String
  name : String
  birthYear : Int
  deathYear : Int
  place : String

/-- `DEMO_DATA`. -/
def DEMO_DATA : List DemoRec :=
  [⟨"d1", "Karl Johansson", 1872, 1939, "Falun"⟩,
   ⟨"d2", "Anna Persdotter", 1878, 1951, "Leksand"⟩,
   ⟨"d3", "Erik Lind", 1901, 1977, "Gävle"⟩,
   ⟨"d4", "Maria Nilsdotter", 1822, 1890, "Uppsala"⟩]

/-- The object `{ ...p, source: "Demo", why: ["Demo-post"] }` handed to
`makeCandidate` by the demo provider (no `url` key, hence `undefined`). -/
def demoRecRaw (p : DemoRec) : RawCandidate :=
  { id := .str p.id
    name := .str p.name
    birthYear := .num p.birthYear
    deathYear := .num p.deathYear
    place := .str p.place
    source := .str "Demo"
    url := .undefined
    why := jarr [.str "Demo-post"] }

/-- `DemoProvider.search(query)`: normalize, gate on the minimum length,
filter by case-insensitive substring match on name or place, cap at
`MAX_LIMIT`, map through the candidate normalizer. -/
def demoSearch (query : String) : List Candidate :=
  let q := normalizeStr query
  if q.length < MIN_QUERY_LEN then []
  else
    (((DEMO_DATA.filter (fun p =>
        jsIncludes (normalizeStr p.name) q || jsIncludes (normalizeStr p.place) q)).take
      (MAX_LIMIT.toNat)).map (fun p => makeCandidate (demoRecRaw p)))

/-! ### Remote provider (`SearchApiProvider.search`) -/

/-- Outcome of the single `abortableFetch` a search performs: either the
fetch promise rejects (network failure, abort/timeout or CORS rejection —
indistinguishable to the caller), or a response arrives with a status and,
when the body parses as JSON, its decoded value (`none` models a
`res.json()` failure). -/
inductive FetchOutcome where
  | netFail
  | resp (status : Nat) (body : Option JsVal)

/-- The typed failures a remote search can surface
(the source throws `Error` with exactly these message shapes). -/
inductive SearchErr where
  | networkOrTimeout
  | upstreamHttp (status : Nat)
  | badJson
deriving DecidableEq

/-- `res.ok`: HTTP status in the 2xx range. -/
def resOk (status : Nat) : Bool := 200 ≤ status && status ≤ 299

/-- `makeTmpId()`: a locally unique placeholder id.  The source seeds it
from the clock plus a random suffix; the model determinizes it by the
item's position in the response, which preserves local uniqueness. -/
def makeTmpId (seed : Nat) : String := "tmp_" ++ toString seed

/-- The id of one raw item: `pickText(r && (r.id || r.identifier))`,
falling back to a temporary id when empty. -/
def itemId (r : JsVal) (seed : Nat) : String :=
  let t := pickText (jsAnd r (jsOr (getField r "id") (getField r "identifier")))
  if t = "" then makeTmpId seed else t

/-- `r && r.metadata ? r.metadata.date : ""`. -/
def itemMdDate (r : JsVal) : JsVal :=
  if truthy (jsAnd r (getField r "metadata"))
  then getField (getField r "metadata") "date"
  else .str ""

/-- The item's place text: direct `place`/`location`, else the `metadata`
variants, else empty (the source's trailing `|| ""` is the identity on the
string `pickText` already returned). -/
def itemPlace (r : JsVal) : String :=
  let md := getField r "metadata"
  pickText (jsOr (jsAnd r (jsOr (getField r "place") (getField r "location")))
    (jsOr (jsAnd (jsAnd r md) (jsOr (getField md "place")
      (jsOr (getField md "location") (getField md "ort"))))
      (.str "")))

/-- The item's url from `r._links || r.links` (trailing `|| ""` again the
identity). -/
def itemUrl (r : JsVal) : String :=
  extractUrlFromLinks (jsAnd r (jsOr (getField r "_links") (getField r "links")))

/-- The `why` list built for one accepted item, after `filter(Boolean)`. -/
def itemWhy (mdDate : JsVal) : List String :=
  (["Match via namn (Person/Agent)",
    if truthy mdDate then "Datum: " ++ pickText mdDate else ""]).filter
    (fun s => !(s = ""))

/-- An optional year as the JavaScript value handed to `makeCandidate`. -/
def optYearToJs : Option Nat → JsVal
  | some y => .num y
  | none => .null

/-- The object handed to `makeCandidate` for one accepted remote item. -/
def itemRaw (r : JsVal) (seed : Nat) (name : String) : RawCandidate :=
  let mdDate := itemMdDate r
  let years := parseDateRangeFromMetadataDate mdDate
  { id := .str (itemId r seed)
    name := .str name
    birthYear := optYearToJs years.birthYear
    deathYear := optYearToJs years.deathYear
    place := .str (itemPlace r)
    source := .str "Riksarkivet"
    url := .str (itemUrl r)
    why := jarr ((itemWhy mdDate).map JsVal.str) }

/-- The mapping loop over the person-filtered items: stop once the limit is
reached, skip items whose best name fails `looksLikePersonName`, otherwise
emit the normalized Candidate. -/
def buildCandidates (cap : Nat) : List JsVal → Nat → List Candidate
  | [], _ => []
  | r :: rest, seed =>
      match cap with
      | 0 => []
      | capPred + 1 =>
          let name := extractBestPersonName r
          if looksLikePersonName name then
            makeCandidate (itemRaw r seed name) :: buildCandidates capPred rest (seed + 1)
          else
            buildCandidates (capPred + 1) rest (seed + 1)

/-- `(json && (json.items || json.records || json.data || json.results)) || []`. -/
def resolveRawItems (json : JsVal) : JsVal :=
  jsOr (jsAnd json (jsOr (getField json "items") (jsOr (getField json "records")
    (jsOr (getField json "data") (getField json "results"))))) (jarr [])

/-- The body of the remote search once a JSON value is in hand: resolve the
envelope, return `[]` unless it is a non-empty array, filter to likely
person items (empty again means `[]`, fail-closed), then map and cap. -/
def searchBody (json : JsVal) : List Candidate :=
  match resolveRawItems json with
  | .arr items =>
      let rawItems := listOfItems items
      if rawItems.isEmpty then []
      else
        let personItems := rawItems.filter isLikelyPersonItem
        if personItems.isEmpty then []
        else (buildCandidates limitNat personItems 0).take limitNat
  | _ => []

/-- `SearchApiProvider.search(query)` given the outcome of its single
fetch.  The second component counts fetch invocations (the source performs
at most one and never retries).  The sanitized query only feeds the request
URL, so it does not appear in the result. -/
def searchApiSearch (query : String) (outcome : FetchOutcome) :
    Except SearchErr (List Candidate) × Nat :=
  let qRaw := jsTrim query
  if qRaw.length < MIN_QUERY_LEN then (Except.ok [], 0)
  else
    match outcome with
    | .netFail => (Except.error SearchErr.networkOrTimeout, 1)
    | .resp status body =>
        if resOk status then
          match body with
          | some json => (Except.ok (searchBody json), 1)
          | none => (Except.error SearchErr.badJson, 1)
        else (Except.error (SearchErr.upstreamHttp status), 1)

/-! ### Registry and selector -/

/-- The two providers registered at startup. -/
inductive Provider where
  | demo
  | searchapi
deriving DecidableEq

/-- `REGISTRY`: insertion-ordered map from provider id to the provider. -/
def REGISTRY : List (String × Provider) :=
  [("demo", Provider.demo), ("searchapi", Provider.searchapi)]

/-- `listProviders()` returns the registered ids (labels omitted). -/
def listProviderIds : List String := REGISTRY.map (fun p => p.1)

/-- `pickProvider(preferred)`: explicit `"demo"`/`"searchapi"` select those
providers; every other value (including `"auto"`) evaluates
`SearchApiProvider || DemoProvider`, and `SearchApiProvider` is always a
defined (truthy) object, so the remote provider is returned. -/
def pickProvider (preferred : String) : Provider :=
  if preferred = "demo" then Provider.demo
  else if preferred = "searchapi" then Provider.searchapi
  else Provider.searchapi

/-! ## Helper lemmas -/

theorem jsOr_cases (a b : JsVal) : jsOr a b = a ∨ jsOr a b = b := by
  unfold jsOr
  split
  · exact Or.inl rfl
  · exact Or.inr rfl

theorem isArr_of_not_truthy {v : JsVal} (h : truthy v = false) : isArr v = false := by
  cases v <;> simp [truthy, isArr] at *

theorem jsOr_isArr_false {a b : JsVal} (ha : isArr a = false) (hb : isArr b = false) :
    isArr (jsOr a b) = false := by
  rcases jsOr_cases a b with h | h <;> rw [h] <;> assumption

theorem jsString_str (s : String) : jsString (.str s) = s := rfl

theorem jsString_or_empty (s : String) : jsString (jsOr (.str s) (.str "")) = s := by
  by_cases h : s = "" <;> simp [jsOr, truthy, h, jsString_str]

theorem jsCoalesce_null_idem (v : JsVal) :
    jsCoalesce (jsCoalesce v .null) .null = jsCoalesce v .null := by
  cases v <;> rfl

theorem listOfItems_jsItemsOf (l : List JsVal) : listOfItems (jsItemsOf l) = l := by
  induction l with
  | nil => rfl
  | cons x xs ih => simp [jsItemsOf, listOfItems, ih]

theorem safeArray_jarr (l : List JsVal) : safeArray (jarr l) = l := by
  simp [safeArray, jarr, listOfItems_jsItemsOf]

theorem dropWhile_idem {α : Type} (p : α → Bool) (l : List α) :
    (l.dropWhile p).dropWhile p = l.dropWhile p := by
  induction l with
  | nil => rfl
  | cons a as ih =>
      by_cases h : p a
      · simpa [List.dropWhile_cons, h] using ih
      · simp [List.dropWhile_cons, h]

theorem dropWhile_head_not {α : Type} (p : α → Bool) (l : List α) {a : α}
    (h : (l.dropWhile p).head? = some a) : p a = false := by
  induction l with
  | nil => simp [List.dropWhile] at h
  | cons b bs ih =>
      by_cases hb : p b
      · exact ih (by simpa [List.dropWhile_cons, hb] using h)
      · rw [List.dropWhile_cons, if_neg (by simpa using hb)] at h
        simp at h
        rw [← h]
        exact Bool.eq_false_iff.mpr hb

theorem dropWhile_eq_self_of_head {α : Type} (p : α → Bool) (l : List α)
    (h : ∀ a, l.head? = some a → p a = false) : l.dropWhile p = l := by
  cases l with
  | nil => rfl
  | cons a as => simp [List.dropWhile_cons, h a rfl]

theorem getLast?_dropWhile {α : Type} (p : α → Bool) (l : List α)
    (h : l.dropWhile p ≠ []) : (l.dropWhile p).getLast? = l.getLast? := by
  induction l with
  | nil => simp [List.dropWhile] at h
  | cons a as ih =>
      by_cases ha : p a
      · have h' : as.dropWhile p ≠ [] := by simpa [List.dropWhile_cons, ha] using h
        rw [List.dropWhile_cons, if_pos ha, ih h']
        cases as with
        | nil => simp [List.dropWhile] at h'
        | cons b bs => simp [List.getLast?_cons_cons]
      · simp [List.dropWhile_cons, ha]

theorem jsTrimList_idem (l : List Char) : jsTrimList (jsTrimList l) = jsTrimList l := by
  have hdrop : (jsTrimList l).dropWhile isJsWhitespace = jsTrimList l := by
    apply dropWhile_eq_self_of_head
    intro a ha
    unfold jsTrimList at ha
    rw [List.head?_reverse] at ha
    have hBne : (l.dropWhile isJsWhitespace).reverse.dropWhile isJsWhitespace ≠ [] := by
      intro h0
      rw [h0] at ha
      simp at ha
    rw [getLast?_dropWhile _ _ hBne, List.getLast?_reverse] at ha
    exact dropWhile_head_not _ _ ha
  have hstep : jsTrimList (jsTrimList l)
      = (((jsTrimList l).dropWhile isJsWhitespace).reverse.dropWhile isJsWhitespace).reverse := rfl
  rw [hstep, hdrop]
  show (((((l.dropWhile isJsWhitespace).reverse.dropWhile
      isJsWhitespace).reverse).reverse.dropWhile isJsWhitespace).reverse) = jsTrimList l
  rw [List.reverse_reverse, dropWhile_idem]
  rfl

theorem jsTrim_idem (s : String) : jsTrim (jsTrim s) = jsTrim s := by
  unfold jsTrim
  exact congrArg String.mk (jsTrimList_idem s.data)

theorem safeUrl_spec (v : JsVal) : safeUrl v = "" ∨ matchesHttpRegexCI (safeUrl v) = true := by
  unfold safeUrl
  by_cases h1 : jsTrim (jsString (jsOr v (.str ""))) = ""
  · simp [h1]
  · by_cases h2 : matchesHttpRegexCI (jsTrim (jsString (jsOr v (.str "")))) = true <;>
      simp [h1, h2]

theorem safeUrl_trimmed (v : JsVal) : jsTrim (safeUrl v) = safeUrl v := by
  unfold safeUrl
  by_cases h1 : jsTrim (jsString (jsOr v (.str ""))) = ""
  · simp only [h1, if_pos rfl]
    rfl
  · by_cases h2 : matchesHttpRegexCI (jsTrim (jsString (jsOr v (.str "")))) = true
    · simp only [h1, h2, if_neg, if_pos, ite_true, ite_false]
      simp [h1, h2, jsTrim_idem]
    · simp only [h1, h2]
      simp [h1, h2]
      rfl

theorem safeUrl_str_fixed {u : String} (hne : ¬ u = "") (htrim : jsTrim u = u)
    (hm : matchesHttpRegexCI u = true) : safeUrl (jsOr (.str u) (.str "")) = u := by
  have hor : jsOr (JsVal.str u) (.str "") = .str u := by
    simp [jsOr, truthy, hne]
  rw [hor]
  simp only [safeUrl, hor, jsString_str, htrim]
  simp [hne, hm]

theorem safeUrl_roundtrip (v : JsVal) :
    safeUrl (jsOr (.str (safeUrl v)) (.str "")) = safeUrl v := by
  by_cases h : safeUrl v = ""
  · rw [h]
    rfl
  · rcases safeUrl_spec v with hspec | hspec
    · exact absurd hspec h
    · exact safeUrl_str_fixed h (safeUrl_trimmed v) hspec

/-! ## Claims -/

/-- Claim C1, counterexample: a decoded response in which the probed
envelope key `items` holds a non-list (and no other known key holds a
list) makes the remote search return the empty list as a success — it does
not fail, and the error type of the search contains no `BAD_PAYLOAD`
variant at all. -/
theorem claim1_counterexample :
    searchApiSearch "Andersson"
      (FetchOutcome.resp 200 (some (jobj [("items", .str "broken")])))
      = (Except.ok [], 1) := rfl

/-- Helper for C1: when no known envelope key holds an actual list, the
post-parse search body is the empty list. -/
theorem searchBody_empty_of_no_list (json : JsVal)
    (henv : ∀ k ∈ ["items", "records", "data", "results"],
      isArr (getField json k) = false) :
    searchBody json = [] := by
  have h1 : isArr (getField json "items") = false := henv _ (by simp)
  have h2 : isArr (getField json "records") = false := henv _ (by simp)
  have h3 : isArr (getField json "data") = false := henv _ (by simp)
  have h4 : isArr (getField json "results") = false := henv _ (by simp)
  have hchain : isArr (jsOr (getField json "items") (jsOr (getField json "records")
      (jsOr (getField json "data") (getField json "results")))) = false :=
    jsOr_isArr_false h1 (jsOr_isArr_false h2 (jsOr_isArr_false h3 h4))
  have hAnd : isArr (jsAnd json (jsOr (getField json "items") (jsOr (getField json "records")
      (jsOr (getField json "data") (getField json "results"))))) = false := by
    unfold jsAnd
    split
    · exact hchain
    · next hfalse => exact isArr_of_not_truthy (Bool.eq_false_iff.mpr hfalse)
  unfold searchBody resolveRawItems
  rcases jsOr_cases (jsAnd json (jsOr (getField json "items") (jsOr (getField json "records")
      (jsOr (getField json "data") (getField json "results"))))) (jarr []) with hcase | hcase
  · rw [hcase]
    generalize hval : jsAnd json (jsOr (getField json "items") (jsOr (getField json "records")
        (jsOr (getField json "data") (getField json "results")))) = w at hAnd ⊢
    cases w <;> first
      | rfl
      | simp [isArr] at hAnd
  · rw [hcase]
    rfl

/-- Claim C1 (corrected): when none of the known envelope keys
(`items`, `records`, `data`, `results`) holds an actual list, the remote
search does NOT fail with a typed `BAD_PAYLOAD` error (no such error
exists); it returns the empty list as a success. -/
theorem claim1_amended (q : String) (status : Nat) (json : JsVal)
    (hq : ¬ (jsTrim q).length < MIN_QUERY_LEN)
    (hok : resOk status = true)
    (henv : ∀ k ∈ ["items", "records", "data", "results"],
      isArr (getField json k) = false) :
    searchApiSearch q (FetchOutcome.resp status (some json)) = (Except.ok [], 1) := by
  simp [searchApiSearch, hq, hok, searchBody_empty_of_no_list json henv]

/-- Witness for C1: the amended theorem applied to a concrete response
whose `records` key holds a number. -/
theorem claim1_witness :
    (¬ (jsTrim "Andersson").length < MIN_QUERY_LEN)
  ∧ resOk 200 = true
  ∧ (∀ k ∈ ["items", "records", "data", "results"],
      isArr (getField (jobj [("records", .num 7)]) k) = false)
  ∧ searchApiSearch "Andersson" (FetchOutcome.resp 200 (some (jobj [("records", .num 7)])))
      = (Except.ok [], 1) :=
  ⟨by decide, rfl, by decide,
   claim1_amended "Andersson" 200 (jobj [("records", .num 7)]) (by decide) rfl (by decide)⟩

/-- A raw item with no type signal whatsoever whose display name passes the
person-likeness heuristic. -/
def c2item : JsVal := jobj [("name", .str "Karlsson, Anna")]

/-- Claim C2, counterexample: this item carries no type signal at all
(so no negative token fires) and its best-guess name passes the
person-likeness heuristic, yet the classifier rejects it and a search
response containing only this item yields the empty candidate list — no
Candidate (and hence no fallback-tier `why` entry) is ever produced. -/
theorem claim2_counterexample :
    looksLikePersonName (extractBestPersonName c2item) = true
  ∧ hasNegativeType (collectTypeTokens c2item) = false
  ∧ isLikelyPersonItem c2item = false
  ∧ searchApiSearch "Karlsson"
      (FetchOutcome.resp 200 (some (jobj [("items", jarr [c2item])])))
      = (Except.ok [], 1) :=
  ⟨rfl, rfl, rfl, rfl⟩

/-- Claim C2 (corrected): there is no fallback tier.  An item without the
primary agent+person signal is rejected by `isLikelyPersonItem` no matter
what its display name looks like; the name heuristic only further filters
items that already passed the primary signal, and no `why` entry records a
tier. -/
theorem claim2_amended (r : JsVal) (h : primarySignal r = false) :
    isLikelyPersonItem r = false := by
  simp only [primarySignal] at h
  simp only [isLikelyPersonItem]
  rw [Bool.or_eq_false_iff] at h
  split
  · rfl
  · simp [h.1, h.2]

/-- Witness for C2: the amended theorem applied to the concrete
signal-free item. -/
theorem claim2_witness :
    primarySignal c2item = false ∧ isLikelyPersonItem c2item = false :=
  ⟨rfl, claim2_amended c2item rfl⟩

/-- Claim C3, counterexample: `"favorit"` is not a registered provider id,
yet `pickProvider` returns the remote provider, not the demo provider. -/
theorem claim3_counterexample :
    (REGISTRY.lookup "favorit" = none)
  ∧ pickProvider "favorit" = Provider.searchapi
  ∧ ¬ pickProvider "favorit" = Provider.demo := by
  refine ⟨rfl, rfl, by decide⟩

/-- Claim C3 (corrected): the registered ids `"demo"` and `"searchapi"`
select their providers, but EVERY other preferred value — the sentinel
`"auto"` as well as unregistered explicit ids — selects the remote
provider (`SearchApiProvider || DemoProvider` with the remote object always
defined), not the demo fallback. -/
theorem claim3_amended (s : String) (h1 : ¬ s = "demo") (h2 : ¬ s = "searchapi") :
    pickProvider s = Provider.searchapi
  ∧ pickProvider "demo" = Provider.demo
  ∧ pickProvider "searchapi" = Provider.searchapi
  ∧ pickProvider "auto" = Provider.searchapi := by
  refine ⟨?_, rfl, rfl, rfl⟩
  simp [pickProvider, h1, h2]

/-- Witness for C3: the amended theorem applied to the sentinel `"auto"`. -/
theorem claim3_witness :
    (¬ "auto" = "demo") ∧ (¬ "auto" = "searchapi")
  ∧ (pickProvider "auto" = Provider.searchapi
      ∧ pickProvider "demo" = Provider.demo
      ∧ pickProvider "searchapi" = Provider.searchapi
      ∧ pickProvider "auto" = Provider.searchapi) :=
  ⟨by decide, by decide, claim3_amended "auto" (by decide) (by decide)⟩

/-- Claim C5, counterexample: `makeCandidate` does not deduplicate the
`why` list — a duplicated justification survives normalization verbatim. -/
theorem claim5_counterexample :
    (makeCandidate { why := jarr [.str "Demo-post", .str "Demo-post"] }).why
      = ["Demo-post", "Demo-post"]
  ∧ ¬ ((makeCandidate { why := jarr [.str "Demo-post", .str "Demo-post"] }).why).Nodup :=
  ⟨rfl, by decide⟩

/-- Claim C5 (corrected): the normalizer stringifies the provider-supplied
`why` entries in order — entry for entry, preserving length (hence also
duplicates) — and the result is a list of strings, so it contains no null
entries; no deduplication is performed. -/
theorem claim5_amended (o : RawCandidate) :
    (makeCandidate o).why = (safeArray o.why).map jsString
  ∧ (makeCandidate o).why.length = (safeArray o.why).length :=
  ⟨rfl, by simp [makeCandidate]⟩

/-- Claim C6, counterexample: the source checks the URL scheme with the
case-insensitive regex `/^https?:\/\//i`, so an upper-case `HTTP://` URL is
kept verbatim; the resulting non-empty `url` does not match the
case-sensitive pattern `^https?://` from the claim. -/
theorem claim6_counterexample :
    (makeCandidate { url := .str "HTTP://example.com" }).url = "HTTP://example.com"
  ∧ matchesHttpRegexCS (makeCandidate { url := .str "HTTP://example.com" }).url = false
  ∧ ¬ (makeCandidate { url := .str "HTTP://example.com" }).url = "" :=
  ⟨rfl, rfl, by decide⟩

/-- Claim C6 (corrected): every Candidate's `url` is either the empty
string or matches `^https?://` read case-insensitively — in particular it
is never a relative path and never carries a scheme other than http(s). -/
theorem claim6_amended (o : RawCandidate) :
    (makeCandidate o).url = "" ∨ matchesHttpRegexCI ((makeCandidate o).url) = true :=
  safeUrl_spec (jsOr o.url (.str ""))

/-- Claim C9: the demo provider's answer to `"Karl"` is exactly the demo
records whose name or place contains `"karl"` case-insensitively, each
mapped through the candidate normalizer with source `"Demo"` — concretely,
only the record `d1`. -/
theorem claim9_demo_karl :
    demoSearch "Karl" =
      (DEMO_DATA.filter (fun p =>
        jsIncludes (normalizeStr p.name) "karl" || jsIncludes (normalizeStr p.place) "karl")).map
        (fun p => makeCandidate (demoRecRaw p))
  ∧ demoSearch "Karl" =
      [{ id := "d1", name := "Karl Johansson", birthYear := .num 1872, deathYear := .num 1939,
         place := "Falun", source := "Demo", url := "", why := ["Demo-post"] }] :=
  ⟨rfl, rfl⟩

/-- Claim C10: the candidate normalizer is idempotent — re-normalizing a
produced Candidate (read back as the field bundle it denotes) changes no
field. -/
theorem claim10_idempotent (o : RawCandidate) :
    makeCandidate (candidateToRaw (makeCandidate o)) = makeCandidate o := by
  unfold makeCandidate candidateToRaw
  simp only [Candidate.mk.injEq]
  refine ⟨jsString_or_empty _, jsString_or_empty _, jsCoalesce_null_idem _,
    jsCoalesce_null_idem _, jsString_or_empty _, jsString_or_empty _,
    safeUrl_roundtrip _, ?_⟩
  rw [safeArray_jarr, List.map_map]
  have hid : (jsString ∘ JsVal.str) = id := by
    funext s
    exact jsString_str s
  rw [hid, List.map_id]

/-- Claim C4: a failing remote search surfaces exactly one typed failure:
`NETWORK_OR_TIMEOUT` iff the fetch itself rejected, `UPSTREAM_HTTP_<status>`
iff the transport succeeded with a status outside 2xx, `BAD_JSON` iff the
status was ok but the body did not parse — and at most one fetch is ever
issued, so no failure is retried internally. -/
theorem claim4_classification (q : String) (outcome : FetchOutcome)
    (hq : ¬ (jsTrim q).length < MIN_QUERY_LEN) :
    ((searchApiSearch q outcome).1 = Except.error SearchErr.networkOrTimeout ↔
        outcome = FetchOutcome.netFail)
  ∧ (∀ st : Nat, (searchApiSearch q outcome).1 = Except.error (SearchErr.upstreamHttp st) ↔
        ∃ b, outcome = FetchOutcome.resp st b ∧ resOk st = false)
  ∧ ((searchApiSearch q outcome).1 = Except.error SearchErr.badJson ↔
        ∃ st : Nat, outcome = FetchOutcome.resp st none ∧ resOk st = true)
  ∧ (searchApiSearch q outcome).2 ≤ 1 := by
  cases outcome with
  | netFail => simp [searchApiSearch, hq]
  | resp status body =>
      by_cases hok : resOk status = true
      · cases body with
        | none => simp [searchApiSearch, hq, hok]
        | some json => simp [searchApiSearch, hq, hok]
      · simp [searchApiSearch, hq, hok, Bool.eq_false_iff.mpr hok]

/-- Witness for C4: the classification applied to a long-enough query and a
rejected fetch. -/
theorem claim4_witness :
    (¬ (jsTrim "abc").length < MIN_QUERY_LEN)
  ∧ (((searchApiSearch "abc" FetchOutcome.netFail).1 =
        Except.error SearchErr.networkOrTimeout ↔
        FetchOutcome.netFail = FetchOutcome.netFail)
  ∧ (∀ st : Nat, (searchApiSearch "abc" FetchOutcome.netFail).1 =
        Except.error (SearchErr.upstreamHttp st) ↔
        ∃ b, FetchOutcome.netFail = FetchOutcome.resp st b ∧ resOk st = false)
  ∧ ((searchApiSearch "abc" FetchOutcome.netFail).1 = Except.error SearchErr.badJson ↔
        ∃ st : Nat, FetchOutcome.netFail = FetchOutcome.resp st none ∧ resOk st = true)
  ∧ (searchApiSearch "abc" FetchOutcome.netFail).2 ≤ 1) :=
  ⟨by decide, claim4_classification "abc" FetchOutcome.netFail (by decide)⟩

/-- The defining equation of the year scan at a position with at least four
remaining characters. -/
theorem findYears_cons4 (c1 c2 c3 c4 : Char) (rest : List Char) (b : Bool) :
    findYears (c1 :: c2 :: c3 :: c4 :: rest) b =
      if !b && yearPat c1 c2 c3 c4 && boundaryAfter rest then
        yearVal c1 c2 c3 c4 :: findYears rest true
      else findYears (c2 :: c3 :: c4 :: rest) (isWordChar c1) := rfl

theorem yearPat_false_of_not_digit {c1 c2 c3 c4 : Char} (h : isDig c1 = false) :
    yearPat c1 c2 c3 c4 = false := by
  have h1 : ¬ c1 = '1' := by
    intro he
    rw [he] at h
    exact absurd h (by decide)
  have h2 : ¬ c1 = '2' := by
    intro he
    rw [he] at h
    exact absurd h (by decide)
  simp [yearPat, h1, h2]

theorem findYears_nil_of_no_digit (l : List Char) (b : Bool)
    (h : ∀ c ∈ l, isDig c = false) : findYears l b = [] := by
  induction l generalizing b with
  | nil => rfl
  | cons c rest ih =>
      have hrest : ∀ x ∈ rest, isDig x = false := fun x hx => h x (List.mem_cons_of_mem _ hx)
      match rest with
      | [] => rfl
      | [c2] => rfl
      | [c2, c3] => rfl
      | c2 :: c3 :: c4 :: rest2 =>
          have hcond : (!b && yearPat c c2 c3 c4 && boundaryAfter rest2) = false := by
            rw [yearPat_false_of_not_digit (h c (List.mem_cons_self _ _))]
            simp
          rw [findYears_cons4, hcond]
          simp only [Bool.false_eq_true, if_false]
          exact ih _ hrest

/-- Text picking on a plain string is trimming. -/
theorem pickText_str (s : String) : pickText (.str s) = jsTrim s := rfl

theorem first_year_ite (l : List Nat) :
    (if l.length ≥ 1 then some (l.getD 0 0) else none) = l[0]? := by
  cases l <;> simp

theorem second_year_ite (l : List Nat) :
    (if l.length ≥ 2 then some (l.getD 1 0) else none) = l[1]? := by
  match l with
  | [] => simp
  | [a] => simp
  | a :: b :: t => simp [List.getD]

/-- Characters surviving the trim are characters of the original list. -/
theorem mem_of_mem_jsTrimList {c : Char} {l : List Char} (h : c ∈ jsTrimList l) : c ∈ l := by
  unfold jsTrimList at h
  rw [List.mem_reverse] at h
  have h1 := (List.dropWhile_sublist _).mem h
  rw [List.mem_reverse] at h1
  exact (List.dropWhile_sublist _).mem h1

/-- Claim C7: the year-range parser takes the 4-digit year tokens of the
(trimmed) free text in document order — the first becomes `birthYear`, the
second `deathYear`, and a digit-free text yields both absent; in
particular `"1661 - 1704"` gives 1661/1704 and `"1704"` gives 1704/absent. -/
theorem claim7_year_range :
    (∀ s : String, parseDateRangeFromMetadataDate (.str s) =
        ⟨(yearTokens (jsTrim s))[0]?, (yearTokens (jsTrim s))[1]?⟩)
  ∧ parseDateRangeFromMetadataDate (.str "1661 - 1704") = ⟨some 1661, some 1704⟩
  ∧ parseDateRangeFromMetadataDate (.str "1704") = ⟨some 1704, none⟩
  ∧ (∀ s : String, (∀ c ∈ s.data, isDig c = false) →
        parseDateRangeFromMetadataDate (.str s) = ⟨none, none⟩) := by
  have hmain : ∀ s : String, parseDateRangeFromMetadataDate (.str s) =
      ⟨(yearTokens (jsTrim s))[0]?, (yearTokens (jsTrim s))[1]?⟩ := by
    intro s
    simp only [parseDateRangeFromMetadataDate, pickText_str]
    by_cases h : jsTrim s = ""
    · rw [if_pos h, h]
      rfl
    · rw [if_neg h, first_year_ite, second_year_ite]
  refine ⟨hmain, rfl, rfl, ?_⟩
  intro s hs
  rw [hmain s]
  have htok : yearTokens (jsTrim s) = [] := by
    apply findYears_nil_of_no_digit
    intro c hc
    exact hs c (mem_of_mem_jsTrimList hc)
  rw [htok]
  rfl

/-- Witness for C7: the parser applied to a digit-free text through the
theorem itself. -/
theorem claim7_witness :
    (∀ c ∈ ("utan år").data, isDig c = false)
  ∧ parseDateRangeFromMetadataDate (.str "utan år") = ⟨none, none⟩ :=
  ⟨by decide, claim7_year_range.2.2.2 "utan år" (by decide)⟩

/-- Claim C8: a query whose trimmed length is under `MIN_QUERY_LEN` makes
the remote search return the empty list with zero fetch invocations, and
makes the (offline, fetch-free) demo search return the empty list as well. -/
theorem claim8_query_floor (q : String) (outcome : FetchOutcome)
    (h : (jsTrim q).length < MIN_QUERY_LEN) :
    searchApiSearch q outcome = (Except.ok [], 0) ∧ demoSearch q = [] := by
  constructor
  · simp [searchApiSearch, h]
  · have hlen : (normalizeStr q).length = (jsTrim q).length := by
      show ((jsTrim q).data.map jsLowerChar).length = (jsTrim q).data.length
      exact List.length_map _ _
    have hcond : (normalizeStr q).length < MIN_QUERY_LEN := by
      rw [hlen]
      exact h
    simp only [demoSearch]
    rw [if_pos hcond]

/-- Witness for C8: both searches short-circuit on the two-character query
`"ab"`. -/
theorem claim8_witness :
    ((jsTrim "ab").length < MIN_QUERY_LEN)
  ∧ (searchApiSearch "ab" FetchOutcome.netFail = (Except.ok [], 0) ∧ demoSearch "ab" = []) :=
  ⟨by decide, claim8_query_floor "ab" FetchOutcome.netFail (by decide)⟩

end RA
